import Mathlib

set_option maxRecDepth 4096

/-!
Verification development for the Streamlit-Resume-AI analysis pipeline
(`src/app.py`).  The core pipeline functions are shallowly embedded:

* `extract_pdf_text` — models `extract_pdf_text` (app.py:47-67); the PDF
  library is abstracted as the list of per-page extracted strings, with
  `none` standing for a structural error while opening/reading the file.
* `parse_gemini_response` — models `parse_gemini_response` (app.py:69-90),
  including Python `str.strip`, `str.find`, `str.rfind`, slicing and
  `json.loads`.
* `create_prompt` — models `create_prompt` (app.py:92-133), including the
  parse/replace semantics of Python `str.format` on the literal template.
* `main_analysis` — models the analysis block of `main` (app.py:498-528).

`json_loads` models Python `json.loads` restricted to the constructs that
can occur in the modelled alphabet: objects, arrays, strings with the
single-character escapes, integers, `true`/`false`/`null`, and the JSON
whitespace characters.  Fractional/exponent numbers, `\u` escapes and the
non-standard `NaN`/`Infinity` constants are outside the model.  Python
dicts preserve insertion order and a duplicate key keeps its first
position with the last value, which `insertMember` reproduces.
-/

/-- The character `{` (written via its code point). -/
def lbrace : Char := Char.ofNat 123

/-- The character `}` (written via its code point). -/
def rbrace : Char := Char.ofNat 125

/-- The character `"` (written via its code point). -/
def dquote : Char := Char.ofNat 34

/-- ASCII whitespace as stripped by Python `str.strip()` (space, tab,
newline, carriage return, vertical tab, form feed); characters outside
this set are treated as non-whitespace by the model. -/
def pyws (c : Char) : Bool :=
  c = ' ' || c = '\t' || c = '\n' || c = '\r' || c = '\x0b' || c = '\x0c'

/-- Python `str.strip()` on a character list. -/
def pystrip (l : List Char) : List Char :=
  ((l.dropWhile pyws).reverse.dropWhile pyws).reverse

/-- Python `str.find` for a single character: index of the first
occurrence, `none` when absent (Python returns `-1`). -/
def pyfind (c : Char) : List Char → Option Nat
  | [] => none
  | x :: xs => if x = c then some 0 else (pyfind c xs).map (· + 1)

/-- Python `str.rfind` for a single character: index of the last
occurrence, `none` when absent (Python returns `-1`). -/
def pyrfind (c : Char) (l : List Char) : Option Nat :=
  (pyfind c l.reverse).map (fun i => l.length - 1 - i)

/-- Python slice `l[a:b]` for `0 ≤ a ≤ b`. -/
def pyslice (l : List Char) (a b : Nat) : List Char :=
  (l.take b).drop a

/-- JSON values, as produced by the model of `json.loads`.  Objects are
association lists in Python dict insertion order. -/
inductive Json where
  | null : Json
  | bool (b : Bool) : Json
  | num (n : Int) : Json
  | str (s : String) : Json
  | arr (elems : List Json) : Json
  | obj (members : List (String × Json)) : Json

/-- JSON whitespace (the set skipped by Python `json.loads`). -/
def jsonWs (c : Char) : Bool :=
  c = ' ' || c = '\t' || c = '\n' || c = '\r'

/-- Skip JSON whitespace. -/
def skipJws (l : List Char) : List Char := l.dropWhile jsonWs

/-- Parse the body of a JSON string after the opening quote: returns the
decoded characters and the input after the closing quote.  Raw control
characters are rejected, as in strict-mode `json.loads`. -/
def parseStringChars : List Char → Option (List Char × List Char)
  | [] => none
  | c :: rest =>
    if c = dquote then some ([], rest)
    else if c = '\\' then
      match rest with
      | [] => none
      | e :: rest2 =>
        let dec : Option Char :=
          if e = dquote then some dquote
          else if e = '\\' then some '\\'
          else if e = '/' then some '/'
          else if e = 'b' then some '\x08'
          else if e = 'f' then some '\x0c'
          else if e = 'n' then some '\n'
          else if e = 'r' then some '\r'
          else if e = 't' then some '\t'
          else none
        match dec with
        | none => none
        | some d => (parseStringChars rest2).map (fun p => (d :: p.1, p.2))
    else if c.toNat < 32 then none
    else (parseStringChars rest).map (fun p => (c :: p.1, p.2))

/-- Parse a nonempty run of digits as a natural number; a leading zero is
only allowed for the single digit `0` (the JSON number grammar). -/
def parseDigits (l : List Char) : Option (Nat × List Char) :=
  let run := l.takeWhile Char.isDigit
  let rest := l.dropWhile Char.isDigit
  match run with
  | [] => none
  | d :: ds =>
    if d = '0' && !ds.isEmpty then none
    else some ((d :: ds).foldl (fun a c => a * 10 + (c.toNat - 48)) 0, rest)

/-- Insert a member into an object under Python dict semantics: a
duplicate key keeps its first position and takes the last value. -/
def insertMember (ms : List (String × Json)) (k : String) (v : Json) :
    List (String × Json) :=
  if ms.any (fun m => m.1 = k) then
    ms.map (fun m => if m.1 = k then (k, v) else m)
  else ms ++ [(k, v)]

/-- Parse the members of a JSON object (positioned at a key, after
whitespace), given a parser `pv` for values and fuel for the loop.
Success always yields `Json.obj`. -/
def parseMembersF (pv : List Char → Option (Json × List Char)) :
    Nat → List Char → List (String × Json) → Option (Json × List Char)
  | 0, _, _ => none
  | _ + 1, [], _ => none
  | mf + 1, c :: rest, acc =>
    if c = dquote then
      match parseStringChars rest with
      | none => none
      | some (kcs, r1) =>
        match skipJws r1 with
        | ':' :: r3 =>
          match pv (skipJws r3) with
          | none => none
          | some (v, r4) =>
            let acc2 := insertMember acc (String.mk kcs) v
            match skipJws r4 with
            | ',' :: r6 => parseMembersF pv mf (skipJws r6) acc2
            | c2 :: r6 => if c2 = rbrace then some (Json.obj acc2, r6) else none
            | [] => none
        | _ => none
    else none

/-- Parse the elements of a JSON array (positioned at a value), given a
parser `pv` for values and fuel for the loop. -/
def parseElemsF (pv : List Char → Option (Json × List Char)) :
    Nat → List Char → List Json → Option (Json × List Char)
  | 0, _, _ => none
  | ef + 1, l, acc =>
    match pv l with
    | none => none
    | some (v, r) =>
      match skipJws r with
      | ',' :: r3 => parseElemsF pv ef (skipJws r3) (acc ++ [v])
      | c2 :: r3 => if c2 = ']' then some (Json.arr (acc ++ [v]), r3) else none
      | [] => none

/-- Parse one JSON value with the given fuel. -/
def parseValue : Nat → List Char → Option (Json × List Char)
  | 0, _ => none
  | _ + 1, [] => none
  | fuel + 1, c :: rest =>
    if c = lbrace then
      match skipJws rest with
      | [] => none
      | c2 :: r2 =>
        if c2 = rbrace then some (Json.obj [], r2)
        else parseMembersF (parseValue fuel) (r2.length + 2) (c2 :: r2) []
    else if c = '[' then
      match skipJws rest with
      | [] => none
      | c2 :: r2 =>
        if c2 = ']' then some (Json.arr [], r2)
        else parseElemsF (parseValue fuel) (r2.length + 2) (c2 :: r2) []
    else if c = dquote then
      (parseStringChars rest).map (fun p => (Json.str (String.mk p.1), p.2))
    else if c = 'n' then
      match rest with
      | 'u' :: 'l' :: 'l' :: r => some (Json.null, r)
      | _ => none
    else if c = 't' then
      match rest with
      | 'r' :: 'u' :: 'e' :: r => some (Json.bool true, r)
      | _ => none
    else if c = 'f' then
      match rest with
      | 'a' :: 'l' :: 's' :: 'e' :: r => some (Json.bool false, r)
      | _ => none
    else if c = '-' then
      (parseDigits rest).map (fun p => (Json.num (-(p.1 : Int)), p.2))
    else if c.isDigit then
      (parseDigits (c :: rest)).map (fun p => (Json.num (p.1 : Int), p.2))
    else none

/-- Model of Python `json.loads`: parse one value, requiring the whole
input to be consumed up to trailing JSON whitespace. -/
def json_loads (s : String) : Option Json :=
  let l := skipJws s.data
  match parseValue (l.length + 1) l with
  | some (v, rest) => if skipJws rest = [] then some v else none
  | none => none

/-- The dict built on the format-error path of `parse_gemini_response`
(app.py:87), from the stripped text. -/
def formatErrorDict (t : List Char) : Json :=
  Json.obj [("error", Json.str "Invalid response format"),
            ("raw_response", Json.str (String.mk t))]

/-- The dict built on the parse-error path of `parse_gemini_response`
(app.py:90), from the stripped text. -/
def parseErrorDict (t : List Char) : Json :=
  Json.obj [("error", Json.str "Failed to parse response"),
            ("raw_response", Json.str (String.mk t))]

/-- `start_idx = response.find(chr(123))` of `parse_gemini_response`
(app.py:77), on the stripped text, with Python’s `-1` for absence. -/
def startIdxOf (t : List Char) : Int :=
  match pyfind lbrace t with
  | some i => (i : Int)
  | none => -1

/-- `end_idx = response.rfind(chr(125)) + 1` of `parse_gemini_response`
(app.py:78), on the stripped text, with Python’s `-1` for absence. -/
def endIdxOf (t : List Char) : Int :=
  (match pyrfind rbrace t with
   | some k => (k : Int)
   | none => -1) + 1

/-- Model of `parse_gemini_response` (app.py:69-90): strip the raw text,
locate the first `\x7b` and the last `\x7d`, slice between them and
decode the slice with `json.loads`; on failure return the corresponding
error dict built from the stripped text (the source rebinds `response`
to the stripped text before building the dicts). -/
def parse_gemini_response (response : String) : Json :=
  if 0 ≤ startIdxOf (pystrip response.data) ∧
      startIdxOf (pystrip response.data) < endIdxOf (pystrip response.data) then
    match json_loads (String.mk (pyslice (pystrip response.data)
        (startIdxOf (pystrip response.data)).toNat
        (endIdxOf (pystrip response.data)).toNat)) with
    | some v => v
    | none => parseErrorDict (pystrip response.data)
  else formatErrorDict (pystrip response.data)

/-- The three control-flow outcomes of `parse_gemini_response`: the
format-error return (no usable brace pair), the parse-error return
(`json.loads` raised), and the success return. -/
inductive ParseOutcome where
  | formatError : ParseOutcome
  | parseError : ParseOutcome
  | success (v : Json) : ParseOutcome

/-- The control-flow outcome taken by `parse_gemini_response` on a given
input, mirroring the same conditions as the function itself. -/
def parse_outcome (response : String) : ParseOutcome :=
  if 0 ≤ startIdxOf (pystrip response.data) ∧
      startIdxOf (pystrip response.data) < endIdxOf (pystrip response.data) then
    match json_loads (String.mk (pyslice (pystrip response.data)
        (startIdxOf (pystrip response.data)).toNat
        (endIdxOf (pystrip response.data)).toNat)) with
    | some v => ParseOutcome.success v
    | none => ParseOutcome.parseError
  else ParseOutcome.formatError

/-- `parse_gemini_response` with its only side effect — the logger —
made explicit as threaded state: the same control flow as
`parse_gemini_response`, also returning the log with the line emitted on
the taken path appended (app.py:83, 86, 89). -/
def parse_with_log (response : String) (log : List String) :
    Json × List String :=
  if 0 ≤ startIdxOf (pystrip response.data) ∧
      startIdxOf (pystrip response.data) < endIdxOf (pystrip response.data) then
    match json_loads (String.mk (pyslice (pystrip response.data)
        (startIdxOf (pystrip response.data)).toNat
        (endIdxOf (pystrip response.data)).toNat)) with
    | some v => (v, log ++ ["INFO: Successfully parsed JSON response"])
    | none =>
      (parseErrorDict (pystrip response.data),
       log ++ ["ERROR: JSON parsing error"])
  else
    (formatErrorDict (pystrip response.data),
     log ++ ["ERROR: Could not find valid JSON in response"])

/-- A piece of a Python format template: a literal chunk or a named
replacement field. -/
inductive Piece where
  | lit (s : String) : Piece
  | field (name : String) : Piece
deriving DecidableEq

/-- Flush a reversed literal-character accumulator onto a piece list. -/
def flushAcc (acc : List Char) (ps : List Piece) : List Piece :=
  match acc with
  | [] => ps
  | _ => Piece.lit (String.mk acc.reverse) :: ps

/-- Scanner states of the Python `str.format` template parser: literal
text, just after a `\x7b`, just after a `\x7d`, or inside a replacement
field (reversed name characters read so far). -/
inductive FmtState where
  | lit : FmtState
  | afterLb : FmtState
  | afterRb : FmtState
  | field (nacc : List Char) : FmtState

/-- Parse a Python `str.format` template into pieces, one character per
step: `\x7b\x7b` and `\x7d\x7d` are escaped braces, `\x7bname\x7d` is a
replacement field, a lone `\x7d` or an unterminated `\x7b` is an error.
The last argument is the reversed literal accumulator.  An empty field
name (auto-numbering with keyword-only arguments) and the
`!`/`:`/`.`/`[` field forms (conversion, format spec, attribute or
index access) are outside the model and rejected; the template of
`create_prompt` uses none of them. -/
def parseFormatGo : FmtState → List Char → List Char → Option (List Piece)
  | FmtState.lit, [], acc => some (flushAcc acc [])
  | FmtState.afterLb, [], _ => none
  | FmtState.afterRb, [], _ => none
  | FmtState.field _, [], _ => none
  | FmtState.lit, c :: rest, acc =>
    if c = lbrace then parseFormatGo FmtState.afterLb rest acc
    else if c = rbrace then parseFormatGo FmtState.afterRb rest acc
    else parseFormatGo FmtState.lit rest (c :: acc)
  | FmtState.afterLb, c :: rest, acc =>
    if c = lbrace then parseFormatGo FmtState.lit rest (lbrace :: acc)
    else if c = rbrace then none
    else if c = '!' || c = ':' || c = '.' || c = '[' then none
    else parseFormatGo (FmtState.field [c]) rest acc
  | FmtState.afterRb, c :: rest, acc =>
    if c = rbrace then parseFormatGo FmtState.lit rest (rbrace :: acc)
    else none
  | FmtState.field nacc, c :: rest, acc =>
    if c = rbrace then
      (parseFormatGo FmtState.lit rest []).map
        (fun ps => flushAcc acc (Piece.field (String.mk nacc.reverse) :: ps))
    else if c = lbrace || c = '!' || c = ':' || c = '.' || c = '[' then none
    else parseFormatGo (FmtState.field (c :: nacc)) rest acc

/-- Render format pieces: literals are copied, fields are looked up in
the keyword environment; replacement values are inserted as-is, never
re-scanned for braces (Python `str.format` semantics). -/
def renderPieces (env : String → Option String) :
    List Piece → String → Option String
  | [], acc => some acc
  | Piece.lit s :: ps, acc => renderPieces env ps (acc ++ s)
  | Piece.field n :: ps, acc =>
    match env n with
    | none => none
    | some v => renderPieces env ps (acc ++ v)

/-- Model of Python `template.format(...)` with keyword arguments given
by `env`; `none` models the exceptions `str.format` can raise. -/
def pyformat (template : String) (env : String → Option String) :
    Option String :=
  match parseFormatGo FmtState.lit template.data [] with
  | none => none
  | some ps => renderPieces env ps ""

/-- Text of the template of `create_prompt` (app.py:94-131) before the
`resume` replacement field; brace-free. -/
def promptPart1 : String :=
  "\n" ++
  "    You are an elite Applicant Tracking System (ATS) expert with deep specialization in technical recruitment for fields including \n" ++
  "    software engineering, data science, machine learning, data analysis, big data engineering, cloud computing, \n" ++
  "    and IT roles. You have 15+ years of experience in technical recruiting for top tech companies.\n" ++
  "    \n" ++
  "    Analyze the provided resume against the job description with extreme precision and provide:\n" ++
  "    \n" ++
  "    1. A percentage match score between the resume and job description. Be realistic but fair - most candidates don\x27t exceed 85% match.\n" ++
  "    2. A detailed, categorized list of important keywords/skills from the job description missing in the resume.\n" ++
  "       Categorize them as: Technical Skills, Soft Skills, Experience, Education/Certifications.\n" ++
  "    3. A compelling professional summary of the candidate\x27s profile.\n" ++
  "    4. 3-5 specific, actionable recommendations to improve the resume for this particular job.\n" ++
  "    5. 2-3 strengths of the resume relative to the job description.\n" ++
  "    6. A brief explanation of why certain skills/experiences are particularly valuable for this role.\n" ++
  "    \n" ++
  "    Resume:\n" ++
  "    "

/-- Text of the template between the `resume` and `jd` replacement
fields; brace-free. -/
def promptPart2 : String :=
  "\n" ++
  "    \n" ++
  "    Job Description:\n" ++
  "    "

/-- Text of the template after the `jd` field up to the first escaped
`\x7b\x7b`; brace-free. -/
def p3A : String :=
  "\n" ++
  "    \n" ++
  "    Return your analysis in the following JSON format only:\n" ++
  "    "

/-- Text of the template between the first and second escaped
`\x7b\x7b`; brace-free. -/
def p3B : String :=
  "\n" ++
  "        \"JD Match\": \"XX%\",\n" ++
  "        \"MissingKeywords\": "

/-- Text of the template between the second escaped `\x7b\x7b` and the
first escaped `\x7d\x7d`; brace-free. -/
def p3C : String :=
  "\n" ++
  "            \"Technical Skills\": [\"skill1\", \"skill2\", ...],\n" ++
  "            \"Soft Skills\": [\"skill1\", \"skill2\", ...],\n" ++
  "            \"Experience\": [\"exp1\", \"exp2\", ...],\n" ++
  "            \"Education/Certifications\": [\"cert1\", \"cert2\", ...]\n" ++
  "        "

/-- Text of the template between the first and second escaped
`\x7d\x7d`; brace-free. -/
def p3D : String :=
  ",\n" ++
  "        \"Profile Summary\": \"Compelling summary of the candidate\x27s profile\",\n" ++
  "        \"Improvement Suggestions\": [\"suggestion1\", \"suggestion2\", \"suggestion3\", ...],\n" ++
  "        \"Resume Strengths\": [\"strength1\", \"strength2\", ...],\n" ++
  "        \"Key Role Requirements\": \"Brief explanation of the most critical skills for this role\"\n" ++
  "    "

/-- Text of the template after the second escaped `\x7d\x7d`;
brace-free. -/
def p3E : String :=
  "\n" ++
  "    \n" ++
  "    Be thorough but ensure you maintain valid JSON format. Focus on practical, actionable insights that would genuinely help the candidate.\n" ++
  "    "

/-- The literal prompt template of `create_prompt` (app.py:94-131),
byte-for-byte: the brace-free runs above joined by the two replacement
fields and the four escaped braces, in source order (braces are written
as code points, apostrophes as code point 39). -/
def promptTemplate : String :=
  promptPart1 ++ "\x7bresume\x7d" ++ promptPart2 ++ "\x7bjd\x7d" ++
  p3A ++ "\x7b\x7b" ++ p3B ++ "\x7b\x7b" ++ p3C ++ "\x7d\x7d" ++
  p3D ++ "\x7d\x7d" ++ p3E

/-- The text of `promptTemplate` after the `jd` replacement field as
`str.format` renders it: the escaped double braces reduced to single
braces. -/
def promptPart3 : String :=
  p3A ++ "\x7b" ++ p3B ++ "\x7b" ++ p3C ++ "\x7d" ++ p3D ++ "\x7d" ++ p3E

/-- Model of `create_prompt` (app.py:92-133):
`prompt.format(resume=resume_text, jd=job_description)` on the literal
template. -/
def create_prompt (resume_text : String) (job_description : String) :
    Option String :=
  pyformat promptTemplate
    (fun n =>
      if n = "resume" then some resume_text
      else if n = "jd" then some job_description
      else none)

/-- Model of `extract_pdf_text` (app.py:47-67).  The PDF library is
abstracted as the list of per-page strings returned by
`page.extract_text()` in page order; `none` models a structural error
raised while opening or reading the document.  The loop concatenates the
page texts into `text` and the function returns `None` when
`text.strip()` is empty. -/
def extract_pdf_text (pages : Option (List String)) : Option String :=
  match pages with
  | none => none
  | some ps =>
    let text := ps.foldl (fun acc s => acc ++ s) ""
    if pystrip text.data = [] then none else some text

/-- Terminal results of the analysis block of `main`
(app.py:498-528). -/
inductive PipelineResult where
  | warnNoFile : PipelineResult
  | warnNoJd : PipelineResult
  | extractionFailure : PipelineResult
  | promptFailure : PipelineResult
  | completionFailure : PipelineResult
  | analyzed (v : Json) : PipelineResult

/-- Model of the analysis block of `main` (app.py:498-528) once the
analyze button is pressed.  The uploaded file is abstracted as in
`extract_pdf_text`; the completion backend (`get_gemini_response`,
app.py:35-45, which returns `None` on any model error) is abstracted as
the oracle `complete`.  Besides the terminal result, the pair counts the
completion calls issued and the parses attempted.  `if not resume_text`
and `if not response` treat both `None` and the empty string as failure
(Python falsiness); `promptFailure` stands for an exception escaping
`create_prompt`, which never happens. -/
def main_analysis (fileUploaded : Bool) (pages : Option (List String))
    (jd : String) (complete : String → Option String) :
    PipelineResult × Nat × Nat :=
  if !fileUploaded then (PipelineResult.warnNoFile, 0, 0)
  else if jd = "" then (PipelineResult.warnNoJd, 0, 0)
  else
    match extract_pdf_text pages with
    | none => (PipelineResult.extractionFailure, 0, 0)
    | some resume =>
      if resume = "" then (PipelineResult.extractionFailure, 0, 0)
      else
        match create_prompt resume jd with
        | none => (PipelineResult.promptFailure, 0, 0)
        | some prompt =>
          match complete prompt with
          | none => (PipelineResult.completionFailure, 1, 0)
          | some raw =>
            if raw = "" then (PipelineResult.completionFailure, 1, 0)
            else (PipelineResult.analyzed (parse_gemini_response raw), 1, 1)

/-- The error check of `display_results` (app.py:137): the branch taken
is `if "error" in analysis_results`, a key-membership test on the
dict. -/
def display_results_reports_error (analysis : Json) : Bool :=
  match analysis with
  | Json.obj ms => ms.any (fun m => m.1 = "error")
  | _ => false

/-- A string free of brace characters. -/
def noBraces (s : String) : Prop :=
  ∀ c ∈ s.data, c ≠ lbrace ∧ c ≠ rbrace

instance (s : String) : Decidable (noBraces s) :=
  inferInstanceAs (Decidable (∀ c ∈ s.data, c ≠ lbrace ∧ c ≠ rbrace))

/-- The model-stub completion text of end-to-end scenario A (spec 8),
a JSON object with extra structure around the required keys. -/
def scenarioAText : String :=
  "\x7b\"JD Match\": \"70%\", \"MissingKeywords\": \x7b\"Technical Skills\": [\"AWS\"]\x7d, \"Profile Summary\": \"...\", \"Improvement Suggestions\": [\"Add AWS experience\"], \"Resume Strengths\": [\"Strong SQL skills\"], \"Key Role Requirements\": \"...\"\x7d"

/-- The decoded structure of `scenarioAText`. -/
def scenarioAJson : Json :=
  Json.obj [("JD Match", Json.str "70%"),
            ("MissingKeywords",
             Json.obj [("Technical Skills", Json.arr [Json.str "AWS"])]),
            ("Profile Summary", Json.str "..."),
            ("Improvement Suggestions", Json.arr [Json.str "Add AWS experience"]),
            ("Resume Strengths", Json.arr [Json.str "Strong SQL skills"]),
            ("Key Role Requirements", Json.str "...")]

/-! ### General helper lemmas -/

theorem mk_data (s : String) : String.mk s.data = s := rfl

theorem empty_append_str (s : String) : "" ++ s = s :=
  String.ext (by rw [String.data_append]; rfl)

theorem append_assoc_str (a b c : String) : a ++ b ++ c = a ++ (b ++ c) :=
  String.ext (by simp [String.data_append])

theorem data_ne_nil (s : String) (h : s ≠ "") : s.data ≠ [] := by
  intro hd
  exact h (String.ext (by rw [hd]))

/-! ### The piece decomposition of the prompt template -/

theorem noBraces_append (a b : String) (ha : noBraces a) (hb : noBraces b) :
    noBraces (a ++ b) := by
  intro c hc
  rw [String.data_append] at hc
  rcases List.mem_append.mp hc with h | h
  exacts [ha c h, hb c h]

theorem noBraces_promptPart1 : noBraces promptPart1 := by
  unfold promptPart1
  repeat first | apply noBraces_append | decide

theorem noBraces_promptPart2 : noBraces promptPart2 := by
  unfold promptPart2
  repeat first | apply noBraces_append | decide

theorem noBraces_p3A : noBraces p3A := by
  unfold p3A
  repeat first | apply noBraces_append | decide

theorem noBraces_p3B : noBraces p3B := by
  unfold p3B
  repeat first | apply noBraces_append | decide

theorem noBraces_p3C : noBraces p3C := by
  unfold p3C
  repeat first | apply noBraces_append | decide

theorem noBraces_p3D : noBraces p3D := by
  unfold p3D
  repeat first | apply noBraces_append | decide

theorem noBraces_p3E : noBraces p3E := by
  unfold p3E
  repeat first | apply noBraces_append | decide

theorem parseFormatGo_litRun (l : List Char)
    (h : ∀ c ∈ l, c ≠ lbrace ∧ c ≠ rbrace) (rest acc : List Char) :
    parseFormatGo FmtState.lit (l ++ rest) acc =
      parseFormatGo FmtState.lit rest (l.reverse ++ acc) := by
  induction l generalizing acc with
  | nil => simp
  | cons c l ih =>
    obtain ⟨h1, h2⟩ := h c (by simp)
    have hl : ∀ x ∈ l, x ≠ lbrace ∧ x ≠ rbrace := fun x hx => h x (by simp [hx])
    show parseFormatGo FmtState.lit (c :: (l ++ rest)) acc = _
    rw [parseFormatGo]
    simp [h1, h2, ih hl]

theorem parseFormatGo_str (s : String) (h : noBraces s) (rest acc : List Char) :
    parseFormatGo FmtState.lit (s.data ++ rest) acc =
      parseFormatGo FmtState.lit rest (s.data.reverse ++ acc) :=
  parseFormatGo_litRun s.data h rest acc

theorem parseFormatGo_resume (rest acc : List Char) :
    parseFormatGo FmtState.lit (("\x7bresume\x7d").data ++ rest) acc =
      (parseFormatGo FmtState.lit rest []).map
        (fun ps => flushAcc acc (Piece.field "resume" :: ps)) := rfl

theorem parseFormatGo_jd (rest acc : List Char) :
    parseFormatGo FmtState.lit (("\x7bjd\x7d").data ++ rest) acc =
      (parseFormatGo FmtState.lit rest []).map
        (fun ps => flushAcc acc (Piece.field "jd" :: ps)) := rfl

theorem parseFormatGo_lbb (rest acc : List Char) :
    parseFormatGo FmtState.lit (("\x7b\x7b").data ++ rest) acc =
      parseFormatGo FmtState.lit rest (lbrace :: acc) := rfl

theorem parseFormatGo_rbb (rest acc : List Char) :
    parseFormatGo FmtState.lit (("\x7d\x7d").data ++ rest) acc =
      parseFormatGo FmtState.lit rest (rbrace :: acc) := rfl

theorem flushAcc_ne (acc : List Char) (h : acc ≠ []) (ps : List Piece) :
    flushAcc acc ps = Piece.lit (String.mk acc.reverse) :: ps := by
  cases acc with
  | nil => exact absurd rfl h
  | cons c l => rfl

theorem data_lb : ("\x7b").data = [lbrace] := by decide

theorem data_rb : ("\x7d").data = [rbrace] := by decide

theorem promptTemplate_pieces :
    parseFormatGo FmtState.lit promptTemplate.data [] =
      some [Piece.lit promptPart1, Piece.field "resume",
            Piece.lit promptPart2, Piece.field "jd", Piece.lit promptPart3] := by
  have hd : promptTemplate.data =
      promptPart1.data ++ (("\x7bresume\x7d").data ++ (promptPart2.data ++
      (("\x7bjd\x7d").data ++ (p3A.data ++ (("\x7b\x7b").data ++ (p3B.data ++
      (("\x7b\x7b").data ++ (p3C.data ++ (("\x7d\x7d").data ++ (p3D.data ++
      (("\x7d\x7d").data ++ (p3E.data ++ [])))))))))))) := by
    simp [promptTemplate, String.data_append]
  rw [hd]
  rw [parseFormatGo_str promptPart1 noBraces_promptPart1]
  rw [parseFormatGo_resume]
  rw [parseFormatGo_str promptPart2 noBraces_promptPart2]
  rw [parseFormatGo_jd]
  rw [parseFormatGo_str p3A noBraces_p3A]
  rw [parseFormatGo_lbb]
  rw [parseFormatGo_str p3B noBraces_p3B]
  rw [parseFormatGo_lbb]
  rw [parseFormatGo_str p3C noBraces_p3C]
  rw [parseFormatGo_rbb]
  rw [parseFormatGo_str p3D noBraces_p3D]
  rw [parseFormatGo_rbb]
  rw [parseFormatGo_str p3E noBraces_p3E]
  rw [parseFormatGo]
  rw [flushAcc_ne _ (by simp)]
  simp only [Option.map_some']
  rw [flushAcc_ne _ (by simp; exact data_ne_nil promptPart1 (by decide))]
  rw [flushAcc_ne _ (by simp; exact data_ne_nil promptPart2 (by decide))]
  simp only [List.append_nil, List.reverse_reverse, mk_data]
  rw [show promptPart3 = String.mk promptPart3.data from rfl]
  have h3 : promptPart3.data =
      p3A.data ++ (lbrace :: (p3B.data ++ (lbrace :: (p3C.data ++
      (rbrace :: (p3D.data ++ (rbrace :: p3E.data))))))) := by
    simp [promptPart3, String.data_append, data_lb, data_rb]
    exact ⟨by decide, by decide⟩
  rw [h3]
  simp [List.reverse_append, List.reverse_cons, List.reverse_reverse,
        List.append_assoc, List.append_nil]

theorem create_prompt_eq (r j : String) :
    create_prompt r j =
      some (promptPart1 ++ r ++ promptPart2 ++ j ++ promptPart3) := by
  unfold create_prompt pyformat
  rw [promptTemplate_pieces]
  simp only [renderPieces]
  rw [empty_append_str]
  simp

/-! ### Characterizing parse_gemini_response by its control-flow outcome -/

theorem parse_eq_outcome (r : String) :
    parse_gemini_response r =
      match parse_outcome r with
      | ParseOutcome.success v => v
      | ParseOutcome.formatError => formatErrorDict (pystrip r.data)
      | ParseOutcome.parseError => parseErrorDict (pystrip r.data) := by
  unfold parse_gemini_response parse_outcome
  split_ifs with h
  · cases hj : json_loads (String.mk (pyslice (pystrip r.data)
      (startIdxOf (pystrip r.data)).toNat
      (endIdxOf (pystrip r.data)).toNat)) <;> simp [hj]
  · rfl

theorem parse_with_log_eq_outcome (r : String) (log : List String) :
    parse_with_log r log =
      match parse_outcome r with
      | ParseOutcome.success v =>
        (v, log ++ ["INFO: Successfully parsed JSON response"])
      | ParseOutcome.formatError =>
        (formatErrorDict (pystrip r.data),
         log ++ ["ERROR: Could not find valid JSON in response"])
      | ParseOutcome.parseError =>
        (parseErrorDict (pystrip r.data),
         log ++ ["ERROR: JSON parsing error"]) := by
  unfold parse_with_log parse_outcome
  split_ifs with h
  · cases hj : json_loads (String.mk (pyslice (pystrip r.data)
      (startIdxOf (pystrip r.data)).toNat
      (endIdxOf (pystrip r.data)).toNat)) <;> simp [hj]
  · rfl

/-! ### Specifications of pyfind and pyrfind -/

theorem pyfind_spec (c : Char) (l : List Char) (i : Nat)
    (h : pyfind c l = some i) :
    l.get? i = some c ∧ ∀ k, k < i → l.get? k ≠ some c := by
  induction l generalizing i with
  | nil => simp [pyfind] at h
  | cons x xs ih =>
    rw [pyfind] at h
    by_cases hx : x = c
    · simp [hx] at h
      subst h
      exact ⟨by simp [hx], fun k hk => absurd hk (by omega)⟩
    · simp [hx] at h
      obtain ⟨j, hj, hji⟩ := h
      obtain ⟨h1, h2⟩ := ih j hj
      subst hji
      refine ⟨by simpa using h1, ?_⟩
      intro k hk
      cases k with
      | zero => simpa using hx
      | succ k => simpa using h2 k (by omega)

theorem pyfind_none (c : Char) (l : List Char) (h : pyfind c l = none) :
    c ∉ l := by
  induction l with
  | nil => simp
  | cons x xs ih =>
    rw [pyfind] at h
    by_cases hx : x = c
    · simp [hx] at h
    · simp [hx] at h
      simp [ih h]
      exact fun hc => hx hc.symm

theorem pyfind_le_of_mem (c : Char) (l : List Char) (i m : Nat)
    (h : pyfind c l = some i) (hm : l.get? m = some c) : i ≤ m := by
  by_contra hlt
  exact (pyfind_spec c l i h).2 m (by omega) hm

theorem pyfind_isSome_of_mem (c : Char) (l : List Char) (h : c ∈ l) :
    ∃ i, pyfind c l = some i := by
  cases hf : pyfind c l with
  | none => exact absurd h (pyfind_none c l hf)
  | some i => exact ⟨i, rfl⟩

theorem get_some_lt (l : List Char) (n : Nat) (a : Char)
    (h : l.get? n = some a) : n < l.length := by
  by_contra hn
  rw [List.get?_eq_none.mpr (by omega)] at h
  exact Option.noConfusion h

theorem pyrfind_spec (c : Char) (l : List Char) (k : Nat)
    (h : pyrfind c l = some k) :
    l.get? k = some c ∧ ∀ m, k < m → l.get? m ≠ some c := by
  unfold pyrfind at h
  cases hf : pyfind c l.reverse with
  | none => rw [hf] at h; exact Option.noConfusion h
  | some i =>
    rw [hf] at h
    simp at h
    obtain ⟨h1, h2⟩ := pyfind_spec c l.reverse i hf
    have hi : i < l.length := by
      have := get_some_lt l.reverse i c h1
      simpa using this
    have hrev : l.reverse.get? i = l.get? (l.length - 1 - i) :=
      List.get?_reverse hi
    subst h
    constructor
    · rw [← hrev]; exact h1
    · intro m hm hmc
      have hmlen : m < l.length := get_some_lt l m c hmc
      have hrev2 : l.reverse.get? (l.length - 1 - m) = l.get? m := by
        rw [List.get?_reverse (show l.length - 1 - m < l.length by omega)]
        congr 1
        omega
      have : i ≤ l.length - 1 - m :=
        pyfind_le_of_mem c l.reverse i (l.length - 1 - m) hf (by rw [hrev2]; exact hmc)
      omega

theorem pyrfind_none (c : Char) (l : List Char) (h : pyrfind c l = none) :
    c ∉ l := by
  unfold pyrfind at h
  cases hf : pyfind c l.reverse with
  | none =>
    intro hc
    exact pyfind_none c l.reverse hf (by simpa using hc)
  | some i => rw [hf] at h; exact Option.noConfusion h

theorem pyrfind_ge_of_mem (c : Char) (l : List Char) (k m : Nat)
    (h : pyrfind c l = some k) (hm : l.get? m = some c) : m ≤ k := by
  by_contra hlt
  exact (pyrfind_spec c l k h).2 m (by omega) hm

theorem pyrfind_isSome_of_mem (c : Char) (l : List Char) (h : c ∈ l) :
    ∃ k, pyrfind c l = some k := by
  cases hf : pyrfind c l with
  | none => exact absurd h (pyrfind_none c l hf)
  | some k => exact ⟨k, rfl⟩

/-! ### Control-flow characterizations of the parse outcome -/

theorem outcome_format_control (r : String) :
    parse_outcome r = ParseOutcome.formatError ↔
      ¬(0 ≤ startIdxOf (pystrip r.data) ∧
        startIdxOf (pystrip r.data) < endIdxOf (pystrip r.data)) := by
  unfold parse_outcome
  by_cases h : (0 ≤ startIdxOf (pystrip r.data) ∧
      startIdxOf (pystrip r.data) < endIdxOf (pystrip r.data))
  · cases hj : json_loads (String.mk (pyslice (pystrip r.data)
      (startIdxOf (pystrip r.data)).toNat
      (endIdxOf (pystrip r.data)).toNat)) <;> simp [h, hj]
  · simp [h]

theorem outcome_parse_control (r : String) :
    parse_outcome r = ParseOutcome.parseError ↔
      ((0 ≤ startIdxOf (pystrip r.data) ∧
        startIdxOf (pystrip r.data) < endIdxOf (pystrip r.data)) ∧
       json_loads (String.mk (pyslice (pystrip r.data)
         (startIdxOf (pystrip r.data)).toNat
         (endIdxOf (pystrip r.data)).toNat)) = none) := by
  unfold parse_outcome
  by_cases h : (0 ≤ startIdxOf (pystrip r.data) ∧
      startIdxOf (pystrip r.data) < endIdxOf (pystrip r.data))
  · cases hj : json_loads (String.mk (pyslice (pystrip r.data)
      (startIdxOf (pystrip r.data)).toNat
      (endIdxOf (pystrip r.data)).toNat)) <;> simp [h, hj]
  · simp [h]

theorem outcome_success_control (r : String) (v : Json) :
    parse_outcome r = ParseOutcome.success v ↔
      ((0 ≤ startIdxOf (pystrip r.data) ∧
        startIdxOf (pystrip r.data) < endIdxOf (pystrip r.data)) ∧
       json_loads (String.mk (pyslice (pystrip r.data)
         (startIdxOf (pystrip r.data)).toNat
         (endIdxOf (pystrip r.data)).toNat)) = some v) := by
  unfold parse_outcome
  by_cases h : (0 ≤ startIdxOf (pystrip r.data) ∧
      startIdxOf (pystrip r.data) < endIdxOf (pystrip r.data))
  · cases hj : json_loads (String.mk (pyslice (pystrip r.data)
      (startIdxOf (pystrip r.data)).toNat
      (endIdxOf (pystrip r.data)).toNat)) <;> simp [h, hj]
  · simp [h]

theorem braceCond_iff (t : List Char) :
    (0 ≤ startIdxOf t ∧ startIdxOf t < endIdxOf t) ↔
      ∃ i j, i < j ∧ t.get? i = some lbrace ∧ t.get? j = some rbrace := by
  unfold startIdxOf endIdxOf
  cases hf : pyfind lbrace t with
  | none =>
    simp only []
    constructor
    · intro h
      exact absurd h.1 (by norm_num)
    · rintro ⟨i, j, hij, hi, hj⟩
      exact absurd (by exact List.get?_mem hi) (pyfind_none lbrace t hf)
  | some i =>
    cases hr : pyrfind rbrace t with
    | none =>
      simp only []
      constructor
      · intro h
        have := h.2
        omega
      · rintro ⟨a, b, hab, ha, hb⟩
        exact absurd (by exact List.get?_mem hb) (pyrfind_none rbrace t hr)
    | some k =>
      simp only []
      constructor
      · intro h
        have hik : i ≤ k := by omega
        have h1 := (pyfind_spec lbrace t i hf).1
        have h2 := (pyrfind_spec rbrace t k hr).1
        have hne : i ≠ k := by
          intro he
          rw [he, h2] at h1
          have : rbrace = lbrace := by injection h1
          exact absurd this (by decide)
        exact ⟨i, k, by omega, h1, h2⟩
      · rintro ⟨a, b, hab, ha, hb⟩
        have h1 : i ≤ a := pyfind_le_of_mem lbrace t i a hf ha
        have h2 : b ≤ k := pyrfind_ge_of_mem rbrace t k b hr hb
        constructor
        · omega
        · have : i ≤ k := by omega
          omega

/-! ### A successful decode of text starting at a brace is an object -/

theorem parseMembersF_obj (pv : List Char → Option (Json × List Char))
    (mf : Nat) :
    ∀ l acc v r, parseMembersF pv mf l acc = some (v, r) →
      ∃ ms, v = Json.obj ms := by
  induction mf with
  | zero => intro l acc v r h; rw [parseMembersF] at h; exact Option.noConfusion h
  | succ mf ih =>
    intro l acc v r h
    match l with
    | [] => rw [parseMembersF] at h; exact Option.noConfusion h
    | c :: rest =>
      rw [parseMembersF] at h
      by_cases hc : c = dquote
      · rw [if_pos hc] at h
        cases hs : parseStringChars rest with
        | none => rw [hs] at h; exact Option.noConfusion h
        | some p =>
          obtain ⟨kcs, r1⟩ := p
          rw [hs] at h
          cases hsk : skipJws r1 with
          | nil => simp only [hsk] at h; exact Option.noConfusion h
          | cons c3 r3x =>
            simp only [hsk] at h
            by_cases hc3 : c3 = ':'
            · subst hc3
              cases hv : pv (skipJws r3x) with
              | none => simp [hv] at h
              | some p2 =>
                obtain ⟨v2, r4⟩ := p2
                simp only [hv] at h
                cases hsk2 : skipJws r4 with
                | nil => simp only [hsk2] at h; exact Option.noConfusion h
                | cons c2 r6 =>
                  simp only [hsk2] at h
                  by_cases hc2 : c2 = ','
                  · subst hc2
                    simp only [] at h
                    exact ih _ _ _ _ h
                  · by_cases hc2b : c2 = rbrace
                    · rw [show (match (c2 :: r6 : List Char) with
                        | ',' :: r6 => parseMembersF pv mf (skipJws r6)
                            (insertMember acc (String.mk kcs) v2)
                        | c2 :: r6 => if c2 = rbrace then
                            some (Json.obj (insertMember acc (String.mk kcs) v2), r6)
                          else none
                        | [] => none) = if c2 = rbrace then
                            some (Json.obj (insertMember acc (String.mk kcs) v2), r6)
                          else none from by
                        cases hc2q : c2 <;> simp_all] at h
                      rw [if_pos hc2b] at h
                      injection h with h1
                      injection h1 with h2 h3
                      exact ⟨_, h2.symm⟩
                    · rw [show (match (c2 :: r6 : List Char) with
                        | ',' :: r6 => parseMembersF pv mf (skipJws r6)
                            (insertMember acc (String.mk kcs) v2)
                        | c2 :: r6 => if c2 = rbrace then
                            some (Json.obj (insertMember acc (String.mk kcs) v2), r6)
                          else none
                        | [] => none) = if c2 = rbrace then
                            some (Json.obj (insertMember acc (String.mk kcs) v2), r6)
                          else none from by
                        cases hc2q : c2 <;> simp_all] at h
                      rw [if_neg hc2b] at h
                      exact Option.noConfusion h
            · rw [show (match (c3 :: r3x : List Char) with
                | ':' :: r3 => (match pv (skipJws r3) with
                    | none => none
                    | some (v, r4) => (match skipJws r4 with
                        | ',' :: r6 => parseMembersF pv mf (skipJws r6)
                            (insertMember acc (String.mk kcs) v)
                        | c2 :: r6 => if c2 = rbrace then
                            some (Json.obj (insertMember acc (String.mk kcs) v), r6)
                          else none
                        | [] => none))
                | _ => none) = none from by
                cases hc3q : c3 <;> simp_all] at h
              exact Option.noConfusion h
      · rw [if_neg hc] at h
        exact Option.noConfusion h

theorem parseValue_obj (fuel : Nat) (rest : List Char) (v : Json)
    (r : List Char) (h : parseValue fuel (lbrace :: rest) = some (v, r)) :
    ∃ ms, v = Json.obj ms := by
  match fuel with
  | 0 => rw [parseValue] at h; exact Option.noConfusion h
  | fuel + 1 =>
    have hv : parseValue (fuel + 1) (lbrace :: rest) =
        match skipJws rest with
        | [] => none
        | c2 :: r2 =>
          if c2 = rbrace then some (Json.obj [], r2)
          else parseMembersF (parseValue fuel) (r2.length + 2) (c2 :: r2) [] := rfl
    rw [hv] at h
    cases hsk : skipJws rest with
    | nil => rw [hsk] at h; exact Option.noConfusion h
    | cons c2 r2 =>
      rw [hsk] at h
      dsimp only at h
      by_cases hc2 : c2 = rbrace
      · rw [if_pos hc2] at h
        injection h with h1
        injection h1 with h2 h3
        exact ⟨[], h2.symm⟩
      · rw [if_neg hc2] at h
        exact parseMembersF_obj (parseValue fuel) (r2.length + 2) _ _ _ _ h

theorem json_loads_obj (s : String) (hs : s.data.head? = some lbrace)
    (v : Json) (h : json_loads s = some v) : ∃ ms, v = Json.obj ms := by
  unfold json_loads at h
  cases hsd : s.data with
  | nil => rw [hsd] at hs; exact Option.noConfusion hs
  | cons c xs =>
    rw [hsd] at hs h
    have hc : c = lbrace := by
      rw [List.head?_cons] at hs
      injection hs
    subst hc
    have hskip : skipJws (lbrace :: xs) = lbrace :: xs := by
      rw [skipJws, List.dropWhile_cons]
      simp [show jsonWs lbrace = false from by decide]
    rw [hskip] at h
    dsimp only at h
    cases hp : parseValue ((lbrace :: xs).length + 1) (lbrace :: xs) with
    | none => rw [hp] at h; exact Option.noConfusion h
    | some p =>
      obtain ⟨v0, rest0⟩ := p
      rw [hp] at h
      dsimp only at h
      by_cases hr : skipJws rest0 = []
      · rw [if_pos hr] at h
        injection h with h1
        subst h1
        exact parseValue_obj _ xs v0 rest0 hp
      · rw [if_neg hr] at h
        exact Option.noConfusion h

theorem head?_pyslice (t : List Char) (i e : Nat) (c : Char)
    (hie : i < e) (h : t.get? i = some c) :
    (pyslice t i e).head? = some c := by
  unfold pyslice
  rw [List.head?_drop]
  rw [← List.get?_eq_getElem?]
  rw [List.get?_take hie]
  exact h

/-! ### Slicing between the outermost braces recovers an embedded payload -/

theorem dropWhile_append_cons (p : Char → Bool) (a : List Char) (c : Char)
    (b : List Char) (hc : p c = false) :
    List.dropWhile p (a ++ c :: b) = List.dropWhile p a ++ c :: b := by
  induction a with
  | nil => simp [List.dropWhile_cons, hc]
  | cons x a ih =>
    cases hx : p x <;> simp [List.dropWhile_cons, hx, ih]

theorem pyfind_append_cons (c : Char) (a b : List Char) (ha : c ∉ a) :
    pyfind c (a ++ c :: b) = some a.length := by
  induction a with
  | nil => simp [pyfind]
  | cons x a ih =>
    have hx : x ≠ c := fun h => ha (by simp [h])
    have ha2 : c ∉ a := fun h => ha (by simp [h])
    rw [List.cons_append, pyfind, if_neg hx, ih ha2]
    rfl

theorem pystrip_decompose (pre mid post : List Char) :
    pystrip (pre ++ lbrace :: (mid ++ rbrace :: post)) =
      List.dropWhile pyws pre ++ lbrace ::
        (mid ++ rbrace :: (List.dropWhile pyws post.reverse).reverse) := by
  unfold pystrip
  rw [dropWhile_append_cons pyws pre lbrace _ (by decide)]
  have h1 : (List.dropWhile pyws pre ++ lbrace :: (mid ++ rbrace :: post)).reverse
      = post.reverse ++ rbrace ::
        (mid.reverse ++ lbrace :: (List.dropWhile pyws pre).reverse) := by
    simp
  rw [h1]
  rw [dropWhile_append_cons pyws post.reverse rbrace _ (by decide)]
  simp

theorem span_of_decomposed (pre1 mid post1 : List Char)
    (hpre : lbrace ∉ pre1) (hpost : rbrace ∉ post1) :
    startIdxOf (pre1 ++ lbrace :: (mid ++ rbrace :: post1)) =
      (pre1.length : Int) ∧
    endIdxOf (pre1 ++ lbrace :: (mid ++ rbrace :: post1)) =
      ((pre1.length + mid.length + 2 : Nat) : Int) := by
  constructor
  · unfold startIdxOf
    rw [pyfind_append_cons lbrace pre1 _ hpre]
  · unfold endIdxOf pyrfind
    have hrev : (pre1 ++ lbrace :: (mid ++ rbrace :: post1)).reverse
        = post1.reverse ++ rbrace :: (mid.reverse ++ lbrace :: pre1.reverse) := by
      simp
    rw [hrev]
    rw [pyfind_append_cons rbrace post1.reverse _ (by simpa using hpost)]
    have hlen : (pre1 ++ lbrace :: (mid ++ rbrace :: post1)).length =
        pre1.length + mid.length + post1.length + 2 := by
      simp
      omega
    rw [Option.map_some']
    rw [hlen]
    simp only [List.length_reverse]
    rw [show pre1.length + mid.length + post1.length + 2 - 1 - post1.length =
        pre1.length + mid.length + 1 from by omega]
    push_cast
    ring

theorem slice_of_decomposed (pre1 mid post1 : List Char) :
    pyslice (pre1 ++ lbrace :: (mid ++ rbrace :: post1)) pre1.length
        (pre1.length + mid.length + 2) =
      lbrace :: (mid ++ [rbrace]) := by
  unfold pyslice
  have hsplit : pre1 ++ lbrace :: (mid ++ rbrace :: post1) =
      (pre1 ++ lbrace :: (mid ++ [rbrace])) ++ post1 := by
    simp
  rw [hsplit]
  rw [List.take_left' (by simp; omega)]
  exact List.drop_left pre1 _

theorem parse_recovers_payload (pre mid post : List Char) (v : Json)
    (hpre : lbrace ∉ pre) (hpost : rbrace ∉ post)
    (hv : json_loads (String.mk (lbrace :: (mid ++ [rbrace]))) = some v) :
    parse_gemini_response (String.mk (pre ++ lbrace :: (mid ++ rbrace :: post))) = v := by
  have hdata : (String.mk (pre ++ lbrace :: (mid ++ rbrace :: post))).data =
      pre ++ lbrace :: (mid ++ rbrace :: post) := rfl
  have hstrip : pystrip (pre ++ lbrace :: (mid ++ rbrace :: post)) =
      List.dropWhile pyws pre ++ lbrace ::
        (mid ++ rbrace :: (List.dropWhile pyws post.reverse).reverse) :=
    pystrip_decompose pre mid post
  have hpre1 : lbrace ∉ List.dropWhile pyws pre :=
    fun hm => hpre ((List.dropWhile_sublist pyws).mem hm)
  have hpost1 : rbrace ∉ (List.dropWhile pyws post.reverse).reverse := by
    intro hm
    exact hpost (by
      have := (List.dropWhile_sublist pyws).mem (List.mem_reverse.mp hm)
      simpa using this)
  obtain ⟨hstart, hend⟩ := span_of_decomposed (List.dropWhile pyws pre) mid
    ((List.dropWhile pyws post.reverse).reverse) hpre1 hpost1
  unfold parse_gemini_response
  rw [hdata, hstrip, hstart, hend]
  rw [if_pos (And.intro (by positivity) (by push_cast; omega))]
  rw [show ((pre.dropWhile pyws).length : Int).toNat =
      (pre.dropWhile pyws).length from Int.toNat_natCast _]
  rw [show (((pre.dropWhile pyws).length + mid.length + 2 : Nat) : Int).toNat =
      (pre.dropWhile pyws).length + mid.length + 2 from Int.toNat_natCast _]
  rw [slice_of_decomposed]
  rw [hv]

/-! ### Extraction: the page loop is concatenation in page order -/

theorem str_mk_append (s : String) (r : List Char) :
    s ++ String.mk r = String.mk (s.data ++ r) := by
  apply String.ext
  rw [String.data_append]

theorem foldl_append_eq (pages : List String) (a : String) :
    pages.foldl (fun acc s => acc ++ s) a =
      a ++ String.mk ((pages.map String.data).flatten) := by
  induction pages generalizing a with
  | nil => simp [String.append_empty]
  | cons s pages ih =>
    rw [List.foldl_cons, ih (a ++ s)]
    apply String.ext
    simp [String.data_append]

theorem forall_dropWhile_iff (p : Char → Bool) (l : List Char) :
    (∀ x ∈ l.dropWhile p, p x = true) ↔ ∀ x ∈ l, p x = true := by
  induction l with
  | nil => simp
  | cons c l ih =>
    cases hp : p c <;> simp [List.dropWhile_cons, hp, ih]

theorem pystrip_eq_nil_iff (l : List Char) :
    pystrip l = [] ↔ ∀ c ∈ l, pyws c = true := by
  unfold pystrip
  rw [List.reverse_eq_nil_iff]
  rw [List.dropWhile_eq_nil_iff]
  constructor
  · intro h c hc
    have hall : ∀ x ∈ l.dropWhile pyws, pyws x = true := by
      intro x hx
      exact h x (by simpa using hx)
    exact (forall_dropWhile_iff pyws l).mp hall c hc
  · intro h x hx
    exact h x ((List.dropWhile_sublist pyws).mem (by simpa using hx))

/-! ### Claim theorems -/

/-- C1: for every resume text and job description — braces included —
building the prompt succeeds (it cannot fail) and returns the fixed
instruction template with the two texts substituted verbatim at its two
substitution points, uncorrupted by braces in the user-supplied text. -/
theorem claim_C1_create_prompt_total (resume_text job_description : String) :
    create_prompt resume_text job_description =
      some (promptPart1 ++ resume_text ++ promptPart2 ++
            job_description ++ promptPart3) :=
  create_prompt_eq resume_text job_description

/-- C2: for every readable PDF, extraction returns the concatenation of
the per-page texts in page order with no pages skipped and no added
delimiters (a page with no text contributes the empty string), failing
exactly when the concatenation is empty or whitespace-only; a
structural error while opening/reading also fails. -/
theorem claim_C2_extract_concatenation :
    (∀ pages : List String,
      extract_pdf_text (some pages) =
        if ((pages.map String.data).flatten).all pyws then none
        else some (String.mk ((pages.map String.data).flatten)))
    ∧ extract_pdf_text none = none := by
  constructor
  · intro pages
    unfold extract_pdf_text
    dsimp only
    rw [foldl_append_eq pages "", empty_append_str]
    by_cases hall : ((pages.map String.data).flatten).all pyws = true
    · rw [if_pos ((pystrip_eq_nil_iff _).mpr (List.all_eq_true.mp hall)),
        if_pos hall]
    · rw [if_neg (fun hh => hall (List.all_eq_true.mpr
        ((pystrip_eq_nil_iff _).mp hh))), if_neg hall]
  · rfl

/-- C3 (amended): `parse_gemini_response` takes the format-error path
exactly when the trimmed text has no `\x7b` followed later by a `\x7d`,
and on that path returns the format error dict whose raw_response is
the trimmed input (not the original input: the source rebinds
`response` to the stripped text first). -/
theorem claim_C3_format_error_iff (response : String) :
    (parse_outcome response = ParseOutcome.formatError ↔
      ¬ ∃ i j, i < j ∧ (pystrip response.data).get? i = some lbrace ∧
        (pystrip response.data).get? j = some rbrace)
    ∧ (parse_outcome response = ParseOutcome.formatError →
        parse_gemini_response response =
          formatErrorDict (pystrip response.data)) := by
  constructor
  · rw [outcome_format_control, braceCond_iff]
  · intro h
    rw [parse_eq_outcome, h]

/-- C3 witness: a concrete input with no braces takes the format-error
path and carries the trimmed text. -/
theorem claim_C3_format_error_iff_witness :
    parse_gemini_response "  hi  " =
      formatErrorDict (pystrip ("  hi  " : String).data) :=
  (claim_C3_format_error_iff "  hi  ").2 (by rfl)

/-- C3 counterexample: the claim asserts the rawResponse field equals
the original input unmodified; on the input with surrounding
whitespace, the field holds the trimmed text, which differs. -/
theorem claim_C3_counterexample :
    parse_gemini_response " no json here " =
      Json.obj [("error", Json.str "Invalid response format"),
                ("raw_response", Json.str "no json here")]
    ∧ "no json here" ≠ " no json here " := ⟨by rfl, by decide⟩

/-- C4: the pipeline is fail-fast — if extraction fails the run ends at
the extraction stage with zero completion calls and zero parses; if the
completion call fails the run ends at the completion stage with one
completion call and zero parses. -/
theorem claim_C4_fail_fast :
    (∀ (pages : Option (List String)) (jd : String)
        (complete : String → Option String),
      jd ≠ "" → extract_pdf_text pages = none →
      main_analysis true pages jd complete =
        (PipelineResult.extractionFailure, 0, 0))
    ∧ (∀ (pages : Option (List String)) (jd : String)
        (complete : String → Option String) (resume : String),
      jd ≠ "" → extract_pdf_text pages = some resume → resume ≠ "" →
      complete (promptPart1 ++ resume ++ promptPart2 ++ jd ++ promptPart3) =
        none →
      main_analysis true pages jd complete =
        (PipelineResult.completionFailure, 1, 0)) := by
  constructor
  · intro pages jd complete hjd hext
    simp [main_analysis, hjd, hext]
  · intro pages jd complete resume hjd hext hres hcomp
    simp [main_analysis, hjd, hext, hres, create_prompt_eq, hcomp]

/-- C4 witness: concrete runs through both failure stages. -/
theorem claim_C4_fail_fast_witness :
    main_analysis true none "jd" (fun _ => none) =
      (PipelineResult.extractionFailure, 0, 0)
    ∧ main_analysis true (some ["resume text"]) "jd" (fun _ => none) =
      (PipelineResult.completionFailure, 1, 0) :=
  ⟨claim_C4_fail_fast.1 none "jd" _ (by decide) rfl,
   claim_C4_fail_fast.2 (some ["resume text"]) "jd" _ "resume text"
     (by decide) (by rfl) (by decide) rfl⟩

/-- C5: a completion text consisting of one well-formed payload
(decoding to `v`) surrounded by prose with no `\x7b` before it and no
`\x7d` after it is parsed to exactly that payload: the slice from the
first `\x7b` to the last `\x7d` is the payload text, and decoding it
recovers `v`. -/
theorem claim_C5_payload_roundtrip (pre mid post : List Char) (v : Json)
    (hpre : lbrace ∉ pre) (hpost : rbrace ∉ post)
    (hv : json_loads (String.mk (lbrace :: (mid ++ [rbrace]))) = some v) :
    parse_gemini_response
      (String.mk (pre ++ lbrace :: (mid ++ rbrace :: post))) = v :=
  parse_recovers_payload pre mid post v hpre hpost hv

/-- C5 witness: a concrete payload inside prose is recovered exactly. -/
theorem claim_C5_payload_roundtrip_witness :
    parse_gemini_response (String.mk (("Sure! ").data ++ lbrace ::
        (("\"a\": 1").data ++ rbrace :: (" Done.").data))) =
      Json.obj [("a", Json.num 1)] :=
  claim_C5_payload_roundtrip ("Sure! ").data ("\"a\": 1").data
    (" Done.").data (Json.obj [("a", Json.num 1)])
    (by decide) (by decide) (by rfl)

/-- C6 (amended): when a brace pair exists but the slice between the
outermost braces fails to decode, `parse_gemini_response` returns the
parse error dict carrying the trimmed raw text (the source rebinds
`response` to the stripped text, so surrounding whitespace of the
original input is not preserved); being a total function it raises no
unhandled fault. -/
theorem claim_C6_parse_error_preserves_raw (response : String)
    (hcond : 0 ≤ startIdxOf (pystrip response.data) ∧
      startIdxOf (pystrip response.data) < endIdxOf (pystrip response.data))
    (hfail : json_loads (String.mk (pyslice (pystrip response.data)
      (startIdxOf (pystrip response.data)).toNat
      (endIdxOf (pystrip response.data)).toNat)) = none) :
    parse_gemini_response response = parseErrorDict (pystrip response.data) := by
  rw [parse_eq_outcome, (outcome_parse_control response).mpr ⟨hcond, hfail⟩]

/-- C6 witness: a concrete input whose brace-delimited content is not
valid JSON yields the parse error dict with the trimmed text. -/
theorem claim_C6_parse_error_witness :
    parse_gemini_response " \x7boops\x7d " =
      parseErrorDict (pystrip (" \x7boops\x7d " : String).data) :=
  claim_C6_parse_error_preserves_raw " \x7boops\x7d " (by decide) (by rfl)

/-- C6 counterexample: the claim asserts the raw text is preserved
verbatim; with surrounding whitespace the parse error dict carries the
trimmed text, which differs from the original input. -/
theorem claim_C6_counterexample :
    parse_gemini_response " \x7boops\x7d " =
      Json.obj [("error", Json.str "Failed to parse response"),
                ("raw_response", Json.str "\x7boops\x7d")]
    ∧ "\x7boops\x7d" ≠ " \x7boops\x7d " := ⟨by rfl, by decide⟩

/-- C7: when decoding of the sliced substring succeeds the decoded
mapping is returned as-is with no schema enforcement, and the pipeline
passes the scenario-A payload through to its output unchanged. -/
theorem claim_C7_decoded_as_is :
    (∀ (response : String) (v : Json),
      parse_outcome response = ParseOutcome.success v →
      parse_gemini_response response = v)
    ∧ main_analysis true (some ["Python, SQL, 3 years experience"])
        "Python, SQL, AWS" (fun _ => some scenarioAText) =
        (PipelineResult.analyzed scenarioAJson, 1, 1) := by
  constructor
  · intro response v h
    rw [parse_eq_outcome, h]
  · have h1 : extract_pdf_text (some ["Python, SQL, 3 years experience"]) =
        some "Python, SQL, 3 years experience" := rfl
    have h2 : parse_gemini_response scenarioAText = scenarioAJson := by rfl
    simp [main_analysis, h1, create_prompt_eq, h2]
    decide

/-- C7 witness: a concrete successful decode is returned as-is. -/
theorem claim_C7_decoded_as_is_witness :
    parse_gemini_response "\x7b\"k\": [true]\x7d" =
      Json.obj [("k", Json.arr [Json.bool true])] :=
  claim_C7_decoded_as_is.1 "\x7b\"k\": [true]\x7d"
    (Json.obj [("k", Json.arr [Json.bool true])]) (by rfl)

/-- C8: `parse_gemini_response` is a pure function of its input — with
the logger state made explicit, the value returned does not depend on
the incoming log, and calling the parser twice in sequence on the same
raw text (threading the log) yields identical results. -/
theorem claim_C8_pure_idempotent (response : String) (log : List String) :
    (parse_with_log response log).1 = parse_gemini_response response
    ∧ (parse_with_log response ((parse_with_log response log).2)).1 =
      (parse_with_log response log).1 := by
  have h1 : ∀ lg : List String,
      (parse_with_log response lg).1 = parse_gemini_response response := by
    intro lg
    rw [parse_with_log_eq_outcome, parse_eq_outcome]
    cases parse_outcome response <;> rfl
  exact ⟨h1 log, (h1 _).trans (h1 log).symm⟩

/-- C9: every return path of `parse_gemini_response` yields a mapping:
error returns are dicts with exactly the keys error and raw_response,
and a successful decode is necessarily an object because the slice
starts at the first `\x7b`. -/
theorem claim_C9_always_dict (response : String) :
    ∃ ms, parse_gemini_response response = Json.obj ms ∧
      (ms.map Prod.fst = ["error", "raw_response"] ∨
       parse_outcome response = ParseOutcome.success (Json.obj ms)) := by
  rw [parse_eq_outcome]
  cases ho : parse_outcome response with
  | formatError => exact ⟨_, rfl, Or.inl rfl⟩
  | parseError => exact ⟨_, rfl, Or.inl rfl⟩
  | success v =>
    obtain ⟨hcond, hl⟩ := (outcome_success_control response v).mp ho
    obtain ⟨h0, hlt⟩ := hcond
    cases hf : pyfind lbrace (pystrip response.data) with
    | none =>
      simp only [startIdxOf, hf] at h0
      exact absurd h0 (by norm_num)
    | some i =>
      cases hr : pyrfind rbrace (pystrip response.data) with
      | none =>
        simp only [startIdxOf, hf, endIdxOf, hr] at hlt
        omega
      | some k =>
        have hik : i < k + 1 := by
          simp only [startIdxOf, hf, endIdxOf, hr] at hlt
          exact_mod_cast hlt
        have hget := (pyfind_spec lbrace _ i hf).1
        have hsl : (pyslice (pystrip response.data) i (k + 1)).head? =
            some lbrace := head?_pyslice _ i (k + 1) lbrace hik hget
        have htoNat : (startIdxOf (pystrip response.data)).toNat = i := by
          rw [startIdxOf, hf]; exact Int.toNat_natCast i
        have htoNat2 : (endIdxOf (pystrip response.data)).toNat = k + 1 := by
          rw [endIdxOf, hr]; exact_mod_cast Int.toNat_natCast (k + 1)
        rw [htoNat, htoNat2] at hl
        obtain ⟨ms, hms⟩ := json_loads_obj _ hsl v hl
        subst hms
        exact ⟨ms, rfl, Or.inr rfl⟩

/-- C10: error signaling is in-band — the raw model text whose valid
JSON payload itself has the keys error and raw_response parses
successfully to a value extensionally identical to a format
ErrorResult (here: the very dict produced for the bare input x), and
the `display_results` consumer classifies it as an error. -/
theorem claim_C10_inband_error_collision :
    parse_outcome
        "\x7b\"error\": \"Invalid response format\", \"raw_response\": \"x\"\x7d" =
      ParseOutcome.success
        (Json.obj [("error", Json.str "Invalid response format"),
                   ("raw_response", Json.str "x")])
    ∧ parse_gemini_response
        "\x7b\"error\": \"Invalid response format\", \"raw_response\": \"x\"\x7d" =
      parse_gemini_response "x"
    ∧ parse_outcome "x" = ParseOutcome.formatError
    ∧ display_results_reports_error (parse_gemini_response
        "\x7b\"error\": \"Invalid response format\", \"raw_response\": \"x\"\x7d") =
      true :=
  ⟨by rfl, by rfl, by rfl, by rfl⟩
